import Mathlib

/-!
Verification of the terminal-wrapper specification against
src/claude_wrapper/wrapper.py.

The development shallowly embeds the pure core of the wrapper:

* the suggestion engine (wrapper.py, generate_suggestion);
* the per-byte keystroke interpreter of the main loop
  (wrapper.py, run_claude_with_pty, the for-loop over a read chunk),
  including the bytes it injects into the pseudo-terminal master and the
  chunk-level forwarding decision;
* the event loop restricted to the state the claims speak about
  (current_message, current_suggestion);
* the status-overlay renderer (update_status_line) and the initial layout
  (setup_terminal_with_status), as the ordered sequence of strings they
  write to stdout;
* the terminal-geometry probe (get_terminal_size), with the ioctl call
  modelled as an optional result.

Text is modelled as List Char for the interpreter (Python str, built
one character at a time from bytes) and as String for the renderer;
input bytes are Nat (values 0..255 as produced by os.read).
-/

/-- ASCII whitespace as recognised by Python str.strip and str.split
(space, tab, newline, carriage return, vertical tab, form feed).  The
wrapper's buffer only ever holds printable ASCII, so the ASCII range of
Python's whitespace test is the relevant one. -/
def isPySpace (c : Char) : Bool :=
  c = ' ' || c = Char.ofNat 9 || c = Char.ofNat 10 || c = Char.ofNat 13 ||
  c = Char.ofNat 11 || c = Char.ofNat 12

/-- Python text.split() with no separator: split on runs of whitespace,
producing no empty tokens. -/
def splitWS : List Char → List (List Char)
  | [] => []
  | c :: cs =>
    if isPySpace c then splitWS cs
    else
      match cs with
      | [] => [[c]]
      | d :: _ =>
        if isPySpace d then [c] :: splitWS cs
        else
          match splitWS cs with
          | [] => [[c]]
          | t :: ts => (c :: t) :: ts

/-- Python text.strip(): drop leading and trailing whitespace. -/
def pyStrip (l : List Char) : List Char :=
  ((l.dropWhile isPySpace).reverse.dropWhile isPySpace).reverse

/-- Python str.lower() on the ASCII range (the only range the wrapper's
buffer can contain): map A..Z to a..z, leave everything else alone. -/
def lowerChar (c : Char) : Char :=
  if 65 ≤ c.toNat ∧ c.toNat ≤ 90 then Char.ofNat (c.toNat + 32) else c

/-- The static suggestion dictionary of generate_suggestion
(wrapper.py lines 20-27), in source order. -/
def suggestions : List (List Char × List Char) :=
  [("write".toList, " a function to calculate fibonacci".toList),
   ("create".toList, " a new Python class".toList),
   ("help".toList, " me understand this code".toList),
   ("fix".toList, " the bug in this function".toList),
   ("explain".toList, " how this works".toList),
   ("show".toList, " me an example".toList)]

/-- generate_suggestion (wrapper.py lines 18-35): strip the text, split
it into whitespace-delimited words, return the dictionary entry of the
lowercased last word, or the empty string when there is no word or no
entry. -/
def generate_suggestion (text : List Char) : List Char :=
  match (splitWS (pyStrip text)).getLast? with
  | none => []
  | some w => (suggestions.lookup (w.map lowerChar)).getD []

example : generate_suggestion ("please write".toList) =
    " a function to calculate fibonacci".toList := by decide

example : generate_suggestion ("WRITE".toList) =
    " a function to calculate fibonacci".toList := by decide

example : generate_suggestion ("banana".toList) = [] := by decide

example : generate_suggestion [] = [] := by decide

/-- Mutable state of the keystroke interpreter inside run_claude_with_pty:
current_message and current_suggestion (wrapper.py lines 118-119).
The debug text (last_debug_info) is deliberately not part of this state:
it is written only to the real terminal by the status-line renderer and
never feeds back into the message, the suggestion, or the bytes forwarded
to the child. -/
structure WState where
  message : List Char
  suggestion : List Char
deriving DecidableEq, Repr

/-- Initial interpreter state: both strings start empty
(wrapper.py lines 118-119). -/
def initialState : WState := ⟨[], []⟩

/-- One iteration of the per-byte loop of run_claude_with_pty
(wrapper.py lines 151-188).  Returns the new state together with the
bytes this iteration writes to the pseudo-terminal master (only the
Tab-acceptance branch writes: it injects the suggestion, encoded as its
character codes, the suggestion being ASCII).  In the printable branch
char = chr(byte) because 32 ≤ byte ≤ 126 < 128. -/
def processByte (s : WState) (b : Nat) : WState × List Nat :=
  if b = 9 ∧ s.suggestion ≠ [] then
    (⟨s.message ++ s.suggestion, []⟩, s.suggestion.map Char.toNat)
  else if b = 13 then
    (⟨[], []⟩, [])
  else if b = 127 then
    (⟨s.message.dropLast, []⟩, [])
  else if b = 3 then
    (⟨[], []⟩, [])
  else if 32 ≤ b ∧ b ≤ 126 then
    (⟨s.message ++ [Char.ofNat b], generate_suggestion (s.message ++ [Char.ofNat b])⟩, [])
  else
    (s, [])

/-- The per-byte loop over a whole read chunk (wrapper.py line 151:
for byte in data), threading the state and concatenating the injected
bytes in order. -/
def processBytes (s : WState) : List Nat → WState × List Nat
  | [] => (s, [])
  | b :: bs =>
    let r := processByte s b
    let rest := processBytes r.1 bs
    (rest.1, r.2 ++ rest.2)

/-- Processing of one chunk read from stdin (wrapper.py lines 148-192):
run the per-byte loop, then forward the whole chunk to the master unless
it is exactly the single byte 9 (line 191:
if not (len(data) == 1 and data[0] == 9)).  The second component is the
complete byte stream written to the child for this chunk: the injected
bytes of the loop followed by the forwarded chunk. -/
def processChunk (s : WState) (data : List Nat) : WState × List Nat :=
  let r := processBytes s data
  if data.length = 1 ∧ data.headI = 9 then (r.1, r.2)
  else (r.1, r.2 ++ data)

-- scratch checks of the interpreter
example : processByte ⟨"write".toList, "x".toList⟩ 9 =
    (⟨"writex".toList, []⟩, [120]) := by decide

example : processByte ⟨"ab".toList, []⟩ 9 = (⟨"ab".toList, []⟩, []) := by decide

example : (processChunk ⟨[], []⟩ [9]).2 = [] := by decide

example : (processChunk ⟨"write".toList, "x".toList⟩ [9, 97]).2 =
    [120, 9, 97] := by decide

example : (processBytes ⟨[], []⟩ [119, 114, 105, 116, 101]).1 =
    ⟨"write".toList, " a function to calculate fibonacci".toList⟩ := by decide

/-- One readiness event of the select loop (wrapper.py lines 144-210):
either a chunk read from the user's stdin or a chunk read from the
pseudo-terminal master (child output). -/
inductive LoopEvent where
  | userInput (data : List Nat)
  | childOutput (data : List Nat)
deriving DecidableEq, Repr

/-- Effect of one loop event on the interpreter state.  The stdin branch
(lines 147-192) runs processChunk; the child-output branch
(lines 196-210) copies the chunk to the real terminal and re-renders the
status line, assigning neither current_message nor current_suggestion. -/
def loopStep (s : WState) : LoopEvent → WState
  | .userInput d => (processChunk s d).1
  | .childOutput _ => s

/-- The event loop as a fold over the sequence of readiness events. -/
def runLoop (s : WState) (es : List LoopEvent) : WState :=
  es.foldl loopStep s

/-- The user-input chunks of an event sequence, in arrival order. -/
def userInputs (es : List LoopEvent) : List (List Nat) :=
  es.filterMap fun e =>
    match e with
    | .userInput d => some d
    | .childOutput _ => none

/-- Number of bottom rows reserved for the status area
(wrapper.py line 91: 2 if debug else 1). -/
def statusLines (debug : Bool) : Nat := if debug then 2 else 1

/-- The rows the status-area initialisation loop of
setup_terminal_with_status touches (wrapper.py lines 102-104:
status_row = rows - status_lines + 1, then rows status_row + i for
i in range(status_lines)). -/
def statusAreaRows (rows : Nat) (debug : Bool) : List Nat :=
  (List.range (statusLines debug)).map fun i =>
    rows - statusLines debug + 1 + i

/-- setup_terminal_with_status (wrapper.py lines 86-110) as the ordered
list of strings it writes to stdout: set the scroll region to rows
1..claude_rows with claude_rows = rows - status_lines, move home, clear
to end of screen, then for each reserved row move there and clear it
(tinting the first one), and finally return the cursor home.  Terminal
size is passed as rows/cols (the code obtains it from
get_terminal_size). -/
def setup_terminal_with_status (rows cols : Nat) (debug : Bool) : List String :=
  ["\x1b[1;" ++ toString (rows - statusLines debug) ++ "r",
   "\x1b[1;1H",
   "\x1b[0J"] ++
  ((List.range (statusLines debug)).map fun i =>
    ["\x1b[" ++ toString (rows - statusLines debug + 1 + i) ++ ";1H",
     "\x1b[K"] ++
    (if i = 0 then
      ["\x1b[48;5;236m" ++ String.mk (List.replicate cols ' ') ++ "\x1b[0m"]
    else [])).flatten ++
  ["\x1b[1;1H"]

/-- One styled powerline segment of the status line (wrapper.py
lines 58, 63, 65): icon and text on a gray background, closed by the
separator glyph. -/
def powerlineSeg (icon txt : String) : String :=
  "\x1b[37;48;5;240m " ++ icon ++ " " ++ txt ++
  " \x1b[48;5;240;38;5;240m\x1b[40m⮀\x1b[0m"

/-- Value of the status_content variable of update_status_line after
the two segment branches (wrapper.py lines 55-65) and before padding:
a suggestion segment when the suggestion is non-empty, followed by a
debug segment when the debug text is non-empty, the debug text being
truncated to 50 characters plus an ellipsis marker. -/
def statusBase (suggestion debug_info : String) : String :=
  (if suggestion ≠ "" then powerlineSeg "💡" suggestion else "") ++
  (if debug_info ≠ "" then
    powerlineSeg "🐛"
      (if debug_info.length > 50 then debug_info.take 50 ++ "..." else debug_info)
  else "")

/-- Final composed status-line content (wrapper.py lines 55-72): the
segments, and when anything is present black padding of
cols - (len(suggestion) + len(debug_info[:50]) + 10) spaces (clamped at
zero, which Nat subtraction gives directly). -/
def statusContent (cols : Nat) (suggestion debug_info : String) : String :=
  if statusBase suggestion debug_info ≠ "" then
    statusBase suggestion debug_info ++ "\x1b[40m" ++
      String.mk (List.replicate
        (cols - (suggestion.length + (debug_info.take 50).length + 10)) ' ') ++
      "\x1b[0m"
  else statusBase suggestion debug_info

/-- update_status_line (wrapper.py lines 47-83) as the ordered list of
strings it writes to stdout: save the cursor, move to row
status_row = rows (column 1), clear the line, write the composed content
when it is non-empty, restore the cursor.  Terminal size is passed as
rows/cols (the code obtains it from get_terminal_size). -/
def update_status_line (rows cols : Nat) (suggestion debug_info : String) : List String :=
  ["\x1b[s",
   "\x1b[" ++ toString rows ++ ";1H",
   "\x1b[K"] ++
  (if statusContent cols suggestion debug_info ≠ "" then
    [statusContent cols suggestion debug_info]
  else []) ++
  ["\x1b[u"]

/-- get_terminal_size (wrapper.py lines 38-44): the TIOCGWINSZ ioctl is
modelled as an optional (rows, cols) pair, none standing for the call
raising; on failure the fallback (24, 80) is returned. -/
def get_terminal_size (ioctl : Option (Nat × Nat)) : Nat × Nat :=
  match ioctl with
  | some rc => rc
  | none => (24, 80)

-- scratch checks of the renderer
example : (setup_terminal_with_status 24 80 false).head? = some "\x1b[1;23r" := by decide

example : (setup_terminal_with_status 24 80 true).head? = some "\x1b[1;22r" := by decide

example : statusAreaRows 24 true = [23, 24] := by decide

example : update_status_line 24 80 "" "" =
    ["\x1b[s", "\x1b[24;1H", "\x1b[K", "\x1b[u"] := by decide

/-! Helper lemmas -/

/-- The continuation suggested for the trigger word write, used by
several concrete inputs below. -/
def fibSuggestion : List Char := " a function to calculate fibonacci".toList

/-- Printable ASCII range of a character, as the wrapper classifies
bytes on line 181 (32 ≤ byte ≤ 126). -/
def Printable (c : Char) : Prop := 32 ≤ c.toNat ∧ c.toNat ≤ 126

instance : DecidablePred Printable := fun c =>
  inferInstanceAs (Decidable (32 ≤ c.toNat ∧ c.toNat ≤ 126))

/-- Invariant of the interpreter state: both the message buffer and the
stored suggestion hold printable ASCII only. -/
def InvState (s : WState) : Prop :=
  (∀ c ∈ s.message, Printable c) ∧ ∀ c ∈ s.suggestion, Printable c

instance : DecidablePred InvState := fun s =>
  inferInstanceAs (Decidable ((∀ c ∈ s.message, Printable c) ∧ ∀ c ∈ s.suggestion, Printable c))

theorem toNat_ofNat_of_valid (b : Nat) (h : b < 55296) : (Char.ofNat b).toNat = b := by
  rw [Char.ofNat, dif_pos (Or.inl h)]
  rfl

theorem lookup_getD_printable :
    ∀ l : List (List Char × List Char), (∀ p ∈ l, ∀ c ∈ p.2, Printable c) →
      ∀ k, ∀ c ∈ (l.lookup k).getD [], Printable c := by
  intro l
  induction l with
  | nil => intro _ k c hc; simp [List.lookup] at hc
  | cons p t ih =>
    intro hl k c hc
    obtain ⟨a, b⟩ := p
    rw [List.lookup_cons] at hc
    split at hc
    · exact hl (a, b) (List.mem_cons_self _ _) c hc
    · exact ih (fun q hq => hl q (List.mem_cons_of_mem _ hq)) k c hc

theorem gs_printable (t : List Char) : ∀ c ∈ generate_suggestion t, Printable c := by
  intro c hc
  unfold generate_suggestion at hc
  split at hc
  · simp at hc
  · exact lookup_getD_printable suggestions (by decide) _ c hc

theorem processByte_printable (s : WState) (b : Nat) (h : 32 ≤ b ∧ b ≤ 126) :
    processByte s b =
      (⟨s.message ++ [Char.ofNat b],
        generate_suggestion (s.message ++ [Char.ofNat b])⟩, []) := by
  have h9 : b ≠ 9 := by omega
  have h13 : b ≠ 13 := by omega
  have h127 : b ≠ 127 := by omega
  have h3 : b ≠ 3 := by omega
  simp [processByte, h9, h13, h127, h3, h]

theorem processByte_passthrough (s : WState) (b : Nat) (h9 : b ≠ 9)
    (h13 : b ≠ 13) (h127 : b ≠ 127) (h3 : b ≠ 3)
    (hp : ¬(32 ≤ b ∧ b ≤ 126)) : processByte s b = (s, []) := by
  simp [processByte, h9, h13, h127, h3, hp]

theorem inv_processByte (s : WState) (b : Nat) (h : InvState s) :
    InvState (processByte s b).1 := by
  unfold processByte
  split
  · exact ⟨fun c hc => (List.mem_append.1 hc).elim (h.1 c) (h.2 c), by simp⟩
  · split
    · exact ⟨by simp, by simp⟩
    · split
      · exact ⟨fun c hc => h.1 c (List.dropLast_subset _ hc), by simp⟩
      · split
        · exact ⟨by simp, by simp⟩
        · split
          · next hp =>
            refine ⟨fun c hc => ?_, gs_printable _⟩
            rcases List.mem_append.1 hc with h1 | h2
            · exact h.1 c h1
            · have hcb : c = Char.ofNat b := by simpa using h2
              subst hcb
              rw [Printable, toNat_ofNat_of_valid b (by omega)]
              omega
          · exact h

theorem inv_processBytes (s : WState) (data : List Nat) (h : InvState s) :
    InvState (processBytes s data).1 := by
  induction data generalizing s with
  | nil => exact h
  | cons b bs ih => exact ih _ (inv_processByte s b h)

theorem inv_chunks (chunks : List (List Nat)) :
    ∀ s : WState, InvState s →
      InvState (chunks.foldl (fun t d => (processChunk t d).1) s) := by
  induction chunks with
  | nil => exact fun s h => h
  | cons d ds ih =>
    intro s h
    rw [List.foldl_cons]
    refine ih _ ?_
    unfold processChunk
    split
    · exact inv_processBytes s d h
    · exact inv_processBytes s d h

theorem runLoop_eq_fold_userInputs (s : WState) (es : List LoopEvent) :
    runLoop s es = (userInputs es).foldl (fun t d => (processChunk t d).1) s := by
  induction es generalizing s with
  | nil => rfl
  | cons e t ih =>
    cases e with
    | userInput d =>
      simp only [runLoop, List.foldl_cons, userInputs, List.filterMap_cons]
      exact ih ((processChunk s d).1)
    | childOutput d =>
      simp only [runLoop, List.foldl_cons, userInputs, List.filterMap_cons]
      exact ih s

/-! Claim theorems -/

/-- C1: evaluation of the code at a failing input.  In the state with
buffer write and the active suggestion for it, processing the two-byte
chunk [9, 97] (Tab followed by the letter a) injects the suggestion and
appends it to the buffer, but the forwarded stream also ends with the
whole chunk, so the literal Tab byte 9 reaches the child: forwarding is
suppressed only when the chunk is exactly one Tab byte, contradicting
the claim (and the code's own comments) that the Tab is never forwarded
regardless of which other bytes arrived in the same read chunk. -/
theorem tab_forwarded_in_multibyte_chunk :
    (⟨"write".toList, fibSuggestion⟩ : WState).suggestion ≠ [] ∧
    (processChunk ⟨"write".toList, fibSuggestion⟩ [9, 97]).2 =
      fibSuggestion.map Char.toNat ++ [9, 97] ∧
    9 ∈ (processChunk ⟨"write".toList, fibSuggestion⟩ [9, 97]).2 := by
  decide

/-- C2, counterexample: in a state with no active suggestion, a chunk
consisting of exactly one Tab byte leaves the state unchanged but
forwards nothing at all to the child — the Tab byte is silently
dropped, contradicting the claim that it is forwarded unchanged. -/
theorem lone_tab_dropped :
    (⟨"hello".toList, []⟩ : WState).suggestion = [] ∧
    (processChunk ⟨"hello".toList, []⟩ [9]).1 = ⟨"hello".toList, []⟩ ∧
    (processChunk ⟨"hello".toList, []⟩ [9]).2 = [] := by
  decide

/-- C2, amended: when no suggestion is active, processing a Tab byte
leaves the buffer and the suggestion unchanged and injects nothing; at
chunk level a chunk that is exactly one Tab byte is silently dropped
(nothing is forwarded), while any chunk of a different length is
forwarded verbatim after the injected bytes. -/
theorem tab_without_suggestion (s : WState) (h : s.suggestion = []) :
    processByte s 9 = (s, []) ∧
    processChunk s [9] = (s, []) ∧
    ∀ data : List Nat, data.length ≠ 1 →
      (processChunk s data).2 = (processBytes s data).2 ++ data := by
  have hpb : processByte s 9 = (s, []) := by
    simp [processByte, h]
  refine ⟨hpb, ?_, ?_⟩
  · simp [processChunk, processBytes, hpb]
  · intro data hlen
    unfold processChunk
    rw [if_neg (fun hc => hlen hc.1)]

/-- Witness for the amended C2 theorem at concrete inputs. -/
theorem tab_without_suggestion_witness :
    processByte ⟨"ab".toList, []⟩ 9 = (⟨"ab".toList, []⟩, []) ∧
    (processChunk ⟨"ab".toList, []⟩ [9, 9]).2 =
      (processBytes ⟨"ab".toList, []⟩ [9, 9]).2 ++ [9, 9] :=
  ⟨(tab_without_suggestion ⟨"ab".toList, []⟩ rfl).1,
   (tab_without_suggestion ⟨"ab".toList, []⟩ rfl).2.2 [9, 9] (by decide)⟩

/-- C3: for any starting state and any byte sequence containing none of
13 (Enter), 127 (Backspace), 3 (Ctrl-C) and 9 (Tab), the buffer after
the per-byte loop is the starting buffer followed by the characters of
exactly the bytes in the printable range 32..126, in order. -/
theorem buffer_accumulates_printables (s : WState) (data : List Nat)
    (h : ∀ b ∈ data, b ≠ 13 ∧ b ≠ 127 ∧ b ≠ 3 ∧ b ≠ 9) :
    (processBytes s data).1.message =
      s.message ++
        (data.filter (fun b => decide (32 ≤ b ∧ b ≤ 126))).map Char.ofNat := by
  induction data generalizing s with
  | nil => simp [processBytes]
  | cons b bs ih =>
    have hb := h b (List.mem_cons_self _ _)
    have hrest : ∀ x ∈ bs, x ≠ 13 ∧ x ≠ 127 ∧ x ≠ 3 ∧ x ≠ 9 :=
      fun x hx => h x (List.mem_cons_of_mem _ hx)
    by_cases hp : 32 ≤ b ∧ b ≤ 126
    · simp only [processBytes, processByte_printable s b hp]
      rw [ih _ hrest]
      simp [hp, List.filter_cons]
    · simp only [processBytes,
        processByte_passthrough s b hb.2.2.2 hb.1 hb.2.1 hb.2.2.1 hp]
      rw [ih _ hrest]
      simp [hp, List.filter_cons]

/-- Witness for C3 at a concrete input: from buffer x, the bytes
104, 105, 1, 200 leave the buffer xhi (the two printable bytes h and i
are appended, the control byte 1 and the non-ASCII byte 200 are not). -/
theorem buffer_accumulates_printables_witness :
    (processBytes ⟨"x".toList, []⟩ [104, 105, 1, 200]).1.message = "xhi".toList := by
  have h := buffer_accumulates_printables ⟨"x".toList, []⟩ [104, 105, 1, 200] (by decide)
  rw [h]
  decide

/-- C4: the suggestion engine maps please write, write and WRITE each to
the fibonacci continuation (case-insensitively, on the last token), maps
banana and the empty string to the empty string, and does no prefix
matching (writ, a proper prefix of the trigger write, maps to the empty
string). -/
theorem generate_suggestion_examples :
    generate_suggestion ("please write".toList) = fibSuggestion ∧
    generate_suggestion ("write".toList) = fibSuggestion ∧
    generate_suggestion ("WRITE".toList) = fibSuggestion ∧
    generate_suggestion ("banana".toList) = [] ∧
    generate_suggestion [] = [] ∧
    generate_suggestion ("writ".toList) = [] := by
  decide

/-- C5: processing an Enter byte (13) empties the buffer and the
suggestion and injects nothing, from any prior state; and any read chunk
containing 13 is forwarded to the child in full, so the Enter byte
itself always reaches the child. -/
theorem enter_clears_and_forwards (s : WState) :
    processByte s 13 = (⟨[], []⟩, []) ∧
    ∀ data : List Nat, 13 ∈ data → 13 ∈ (processChunk s data).2 := by
  refine ⟨by simp [processByte], ?_⟩
  intro data hmem
  unfold processChunk
  by_cases hc : data.length = 1 ∧ data.headI = 9
  · rcases data with _ | ⟨a, t⟩
    · simp at hmem
    · rcases hc with ⟨hl, hh⟩
      simp only [List.length_cons] at hl
      have ht : t = [] := by
        cases t with
        | nil => rfl
        | cons x xs => simp at hl
      subst ht
      simp only [List.headI] at hh
      subst hh
      simp at hmem
  · rw [if_neg hc]
    exact List.mem_append.2 (Or.inr hmem)

/-- Witness for C5 at a concrete state and chunk. -/
theorem enter_clears_and_forwards_witness :
    processByte ⟨"hi".toList, "x".toList⟩ 13 = (⟨[], []⟩, []) ∧
    13 ∈ (processChunk ⟨"hi".toList, "x".toList⟩ [13]).2 :=
  ⟨(enter_clears_and_forwards ⟨"hi".toList, "x".toList⟩).1,
   (enter_clears_and_forwards ⟨"hi".toList, "x".toList⟩).2 [13] (by decide)⟩

/-- C6: the buffer starts empty, the printable-ASCII invariant holds
initially and is preserved by every per-byte interpreter step, Tab
acceptance appends the suggestion to the buffer (rather than
duplicating it), and the invariant holds after processing any sequence
of read chunks from the initial state. -/
theorem buffer_printable_invariant :
    initialState.message = [] ∧
    InvState initialState ∧
    (∀ s b, InvState s → InvState (processByte s b).1) ∧
    (∀ s : WState, s.suggestion ≠ [] →
      (processByte s 9).1.message = s.message ++ s.suggestion) ∧
    ∀ chunks : List (List Nat),
      InvState (chunks.foldl (fun t d => (processChunk t d).1) initialState) := by
  refine ⟨rfl, by decide, fun s b h => inv_processByte s b h, ?_,
    fun chunks => inv_chunks chunks initialState (by decide)⟩
  intro s h
  simp [processByte, h]

/-- Witness for C6 at concrete inputs. -/
theorem buffer_printable_invariant_witness :
    InvState (processByte ⟨"hi".toList, []⟩ 119).1 ∧
    (processByte ⟨"a".toList, "bc".toList⟩ 9).1.message = "abc".toList := by
  refine ⟨buffer_printable_invariant.2.2.1 ⟨"hi".toList, []⟩ 119 (by decide), ?_⟩
  rw [buffer_printable_invariant.2.2.2.1 ⟨"a".toList, "bc".toList⟩ (by decide)]
  decide

/-- C7: the interpreter state after the event loop is a function of the
user-input chunks alone; two event sequences with the same user-input
chunks, however the child-output chunks are interleaved among them,
leave identical buffer and suggestion state. -/
theorem buffer_independent_of_child_output (s : WState)
    (es₁ es₂ : List LoopEvent) (h : userInputs es₁ = userInputs es₂) :
    runLoop s es₁ = runLoop s es₂ := by
  rw [runLoop_eq_fold_userInputs, runLoop_eq_fold_userInputs, h]

/-- Witness for C7: child output before, between and after the same
input chunk does not change the resulting state. -/
theorem buffer_independent_of_child_output_witness :
    runLoop initialState
      [LoopEvent.childOutput [1, 2], LoopEvent.userInput [119],
       LoopEvent.childOutput [65]] =
    runLoop initialState [LoopEvent.userInput [119], LoopEvent.childOutput []] :=
  buffer_independent_of_child_output initialState
    [LoopEvent.childOutput [1, 2], LoopEvent.userInput [119],
     LoopEvent.childOutput [65]]
    [LoopEvent.userInput [119], LoopEvent.childOutput []] (by decide)

/-- C8: on a 24-row terminal the initial layout emits scroll-region
rows 1..23 with the status area exactly row 24 when diagnostics are
off, and rows 1..22 with the status area exactly rows 23 and 24 when
diagnostics are on; in general the first emitted control sequence sets
the scroll region to rows 1..(rows - statusLines debug). -/
theorem scroll_region_layout :
    (setup_terminal_with_status 24 80 false).head? = some "\x1b[1;23r" ∧
    statusAreaRows 24 false = [24] ∧
    (setup_terminal_with_status 24 80 true).head? = some "\x1b[1;22r" ∧
    statusAreaRows 24 true = [23, 24] ∧
    ∀ rows cols : Nat, ∀ debug : Bool,
      (setup_terminal_with_status rows cols debug).head? =
        some ("\x1b[1;" ++ toString (rows - statusLines debug) ++ "r") :=
  ⟨by decide, by decide, by decide, by decide, fun rows cols debug => rfl⟩

theorem powerlineSeg_length (icon txt : String) :
    15 ≤ (powerlineSeg icon txt).length := by
  have h1 : ("\x1b[37;48;5;240m " : String).length = 15 := by decide
  simp only [powerlineSeg, String.length_append, h1]
  omega

theorem statusBase_length (s d : String) (h : ¬(s = "" ∧ d = "")) :
    15 ≤ (statusBase s d).length := by
  have h0 : ("" : String).length = 0 := rfl
  by_cases hs : s = ""
  · have hd : d ≠ "" := fun hd => h ⟨hs, hd⟩
    subst hs
    unfold statusBase
    rw [if_neg (fun hn => hn rfl), if_pos hd]
    have hB := powerlineSeg_length "🐛"
      (if d.length > 50 then d.take 50 ++ "..." else d)
    simp only [String.length_append, h0]
    omega
  · unfold statusBase
    rw [if_pos hs]
    have hA := powerlineSeg_length "💡" s
    simp only [String.length_append]
    omega

theorem statusContent_length (cols : Nat) (s d : String)
    (h : ¬(s = "" ∧ d = "")) : 15 ≤ (statusContent cols s d).length := by
  have hb := statusBase_length s d h
  have hbne : statusBase s d ≠ "" := by
    intro hc
    rw [hc] at hb
    exact absurd hb (by decide)
  unfold statusContent
  rw [if_pos hbne]
  simp only [String.length_append]
  omega

theorem statusContent_ne_empty (cols : Nat) (s d : String)
    (h : ¬(s = "" ∧ d = "")) : statusContent cols s d ≠ "" := by
  intro hc
  have hl := statusContent_length cols s d h
  rw [hc] at hl
  exact absurd hl (by decide)

/-- C9, counterexample: on a 24-row terminal with diagnostics enabled
two rows are reserved, so the first reserved row is 23, yet a render
with debug text (the diagnostics-enabled situation) moves the cursor to
row 24: the renderer always targets status_row = rows, not the first
reserved row. -/
theorem status_row_not_first_reserved :
    (update_status_line 24 80 "" "x")[1]? = some "\x1b[24;1H" ∧
    statusLines true = 2 ∧
    24 - statusLines true + 1 = 23 ∧
    ("\x1b[24;1H" : String) ≠ "\x1b[23;1H" := by
  decide

/-- C9, amended: every render call first saves the cursor, then moves
it to the last terminal row (row rows, column 1) — which is the first
reserved row only when a single row is reserved — clears that line,
writes the composed content exactly when the suggestion or the debug
text is non-empty (leaving the line cleared otherwise), and finally
restores the cursor. -/
theorem update_status_line_writes (rows cols : Nat) (s d : String) :
    update_status_line rows cols s d =
      ["\x1b[s", "\x1b[" ++ toString rows ++ ";1H", "\x1b[K"] ++
      (if s = "" ∧ d = "" then [] else [statusContent cols s d]) ++
      ["\x1b[u"] := by
  unfold update_status_line
  by_cases h : s = "" ∧ d = ""
  · rw [if_pos h]
    obtain ⟨hs, hd⟩ := h
    subst hs
    subst hd
    have hempty : statusContent cols "" "" = "" := rfl
    rw [hempty]
    simp
  · rw [if_neg h, if_pos (statusContent_ne_empty cols s d h)]

/-- C10: the geometry probe never propagates an ioctl failure; it
returns the fallback (24, 80) when the size query raises and the
queried size otherwise, so every caller receives a size. -/
theorem get_terminal_size_fallback :
    get_terminal_size none = (24, 80) ∧
    ∀ r c : Nat, get_terminal_size (some (r, c)) = (r, c) :=
  ⟨rfl, fun _ _ => rfl⟩
